import Mathlib

/-!
# Verification of the URA EFRIS SDK secure-envelope layer

A shallow embedding of the cryptographic envelope utilities (`CryptoUtils`,
`src/utils/crypto.ts`) and the session-key client (`KeyClient`,
`src/key_client.ts`) of the SDK, together with proofs of the spec's claims.

Modelling conventions:
* JS `Buffer`s are `List Nat` (each element a byte value).
* Exceptions are `Except Err _`; `Err` mirrors the SDK's exception classes.
* External primitives not implemented in this repository (the AES block
  cipher from node `crypto`, gzip from `zlib`, base64/UTF-8 transcoding and
  RSA from node built-ins, `JSON.parse`/`JSON.stringify`) are passed in as
  explicit function parameters; theorems assume only the properties those
  primitives really have (e.g. base64 decode inverts encode).
* JS truthiness on optional strings (`!x` is true for `undefined` and `''`)
  is modelled by `falsyStr`; `x || d` on strings by `jsOr`; `x ?? d` by
  `Option.getD`.
-/

/-- The SDK's exception kinds: `EncryptionException`, `APIException`,
`AuthenticationException`; `runtime` stands for errors thrown by external
libraries (zlib, JSON) that are not SDK exception classes. -/
inductive Err where
  | encryption (msg : String)
  | api (msg : String)
  | authentication (msg : String)
  | runtime (msg : String)
deriving DecidableEq, Repr

deriving instance DecidableEq for Except

/-- JS `e.message`. -/
def Err.message : Err → String
  | .encryption m => m
  | .api m => m
  | .authentication m => m
  | .runtime m => m

/-- JS truthiness test `!x` for an optional string: true for `undefined`
and for the empty string. -/
def falsyStr : Option String → Bool
  | none => true
  | some s => s = ""

/-- JS `x || d` for an optional string: `d` when `x` is absent or empty. -/
def jsOr (o : Option String) (d : String) : String :=
  match o with
  | some s => if s = "" then d else s
  | none => d

/-- Is an `Except` an error? -/
def exceptIsError {ε α : Type} : Except ε α → Bool
  | .error _ => true
  | .ok _ => false

/-- Source `CryptoUtils.AES_BLOCK_SIZE`. -/
def AES_BLOCK_SIZE : Nat := 16

/-- Source `CryptoUtils.pkcs7Pad`: append `padLen` bytes of value `padLen`, where
`padLen = 16 - (len % 16)` (the string-to-buffer conversion of the source is
done by the caller in this embedding). -/
def pkcs7Pad (buf : List Nat) : List Nat :=
  let padLen := AES_BLOCK_SIZE - buf.length % AES_BLOCK_SIZE
  buf ++ List.replicate padLen padLen

/-- Source `CryptoUtils.pkcs7Unpad`: strict PKCS7 strip with verification. -/
def pkcs7Unpad (data : List Nat) : Except Err (List Nat) :=
  if data.length = 0 then .error (.encryption "Cannot unpad empty string")
  else
    let padLen := data.getD (data.length - 1) 0
    if padLen < 1 ∨ padLen > AES_BLOCK_SIZE then
      .error (.encryption ("Invalid PKCS7 padding length: " ++ toString padLen))
    else
      let padding := data.drop (data.length - padLen)
      if padding ≠ List.replicate padLen padLen then
        .error (.encryption "PKCS7 padding verification failed")
      else .ok (data.take (data.length - padLen))

/-- Fuelled worker for `ecbMap` (structural recursion so that the kernel
can evaluate it; the fuel is always at least the list length). -/
def ecbMapGo (f : List Nat → List Nat) : Nat → List Nat → List Nat
  | _, [] => []
  | 0, _ :: _ => []
  | fuel + 1, data => f (data.take 16) ++ ecbMapGo f fuel (data.drop 16)

/-- Apply a block function to consecutive 16-byte chunks, as node's
ECB-mode cipher does with `setAutoPadding(false)`. -/
def ecbMap (f : List Nat → List Nat) (data : List Nat) : List Nat :=
  ecbMapGo f data.length data

/-- Hex-digit test for one char, as in the regex `[0-9a-fA-F]`. -/
def isHexChar (c : Char) : Bool :=
  (('0' ≤ c) && (c ≤ '9')) || (('a' ≤ c) && (c ≤ 'f')) || (('A' ≤ c) && (c ≤ 'F'))

/-- Numeric value of a hex digit char. -/
def hexCharVal (c : Char) : Nat :=
  if '0' ≤ c ∧ c ≤ '9' then c.toNat - '0'.toNat
  else if 'a' ≤ c ∧ c ≤ 'f' then c.toNat - 'a'.toNat + 10
  else if 'A' ≤ c ∧ c ≤ 'F' then c.toNat - 'A'.toNat + 10
  else 0

/-- Decode pairs of hex chars into bytes (`Buffer.from(s, 'hex')`). -/
def hexDecodeChars : List Char → List Nat
  | c1 :: c2 :: rest => (16 * hexCharVal c1 + hexCharVal c2) :: hexDecodeChars rest
  | _ => []

/-- Source `Buffer.from(s, 'hex')`. -/
def hexDecode (s : String) : List Nat := hexDecodeChars s.data

/-- One hex digit char (lowercase), for `buf.toString('hex')`. -/
def hexDigitChar (n : Nat) : Char :=
  if n < 10 then Char.ofNat ('0'.toNat + n) else Char.ofNat ('a'.toNat + (n - 10))

/-- Source `buf.toString('hex')`: two lowercase hex chars per byte. -/
def hexEncode (bytes : List Nat) : String :=
  String.mk (bytes.foldr (fun b acc => hexDigitChar (b / 16) :: hexDigitChar (b % 16) :: acc) [])

/-- Source `CryptoUtils.normalizeAesKey`: if the key is a non-empty even-length
hex string decoding to 16/24/32 bytes, use the decoded bytes; otherwise the
key's UTF-8 bytes (`utf8e` models `Buffer.from(key, 'utf8')`). -/
def normalizeAesKey (utf8e : String → List Nat) (key : String) : List Nat :=
  if key.data ≠ [] ∧ key.data.all isHexChar = true ∧ key.length % 2 = 0 then
    let decoded := hexDecode key
    if decoded.length = 16 ∨ decoded.length = 24 ∨ decoded.length = 32 then decoded
    else utf8e key
  else utf8e key

/-- Source `CryptoUtils.encryptAesEcb`. `blockEnc` models the keyed AES block
encryption of `crypto.createCipheriv('aes-*-ecb', keyBuf, null)`; `b64e`
models `buf.toString('base64')`; `utf8e` models `Buffer.from(s, 'utf8')`. -/
def encryptAesEcb (blockEnc : List Nat → List Nat → List Nat)
    (b64e : List Nat → String) (utf8e : String → List Nat)
    (plaintext key : String) : Except Err String :=
  let keyBuf := normalizeAesKey utf8e key
  if keyBuf.length = 16 ∨ keyBuf.length = 24 ∨ keyBuf.length = 32 then
    let padded := pkcs7Pad (utf8e plaintext)
    .ok (b64e (ecbMap (blockEnc keyBuf) padded))
  else
    .error (.encryption ("AES key must be 16/24/32 bytes, got " ++ toString keyBuf.length))

/-- Source `CryptoUtils.decryptAesEcb`. `blockDec` models the keyed AES block
decryption, `gunzip` models `zlib.gunzipSync`, `b64d` models
`Buffer.from(s, 'base64')`, `utf8d` models `buf.toString('utf8')`. -/
def decryptAesEcb (blockDec : List Nat → List Nat → List Nat)
    (gunzip : List Nat → Except String (List Nat))
    (b64d : String → List Nat) (utf8e : String → List Nat) (utf8d : List Nat → String)
    (ciphertextB64 : String) (key : Option String)
    (encryptCode zipCode : String) : Except Err String :=
  if ciphertextB64 = "" then .ok ""
  else
    let dataBytes := b64d ciphertextB64
    let step1 : Except Err (List Nat) :=
      if zipCode = "1" then
        if dataBytes.getD 0 0 ≠ 0x1f ∨ dataBytes.getD 1 0 ≠ 0x8b then
          .error (.encryption "zipCode=1 but data is not gzipped")
        else
          match gunzip dataBytes with
          | .ok g => .ok g
          | .error m => .error (.runtime m)
      else .ok dataBytes
    match step1 with
    | .error e => .error e
    | .ok dataBytes2 =>
      if encryptCode = "2" then
        if falsyStr key then .error (.encryption "AES key required for decrypt")
        else
          let keyBuf := normalizeAesKey utf8e (key.getD "")
          if dataBytes2.length % AES_BLOCK_SIZE ≠ 0 then
            .error (.encryption ("Ciphertext length " ++ toString dataBytes2.length ++
              " not multiple of " ++ toString AES_BLOCK_SIZE))
          else
            let decrypted := ecbMap (blockDec keyBuf) dataBytes2
            match pkcs7Unpad decrypted with
            | .ok r => .ok (utf8d r)
            | .error e => .error e
      else .ok (utf8d dataBytes2)

/- =========================================
 * Helper lemmas: PKCS7 and ECB chunking
 * ========================================= -/

/-- Source `dataDescription` of a request envelope. -/
structure DataDescription where
  codeType : String
  encryptCode : String
  zipCode : String
deriving DecidableEq, Repr

/-- Source `data` section of a request envelope. -/
structure EnvelopeData where
  content : String
  signature : String
  dataDescription : DataDescription
deriving DecidableEq, Repr

/-- The fixed `extendField` block of `buildGlobalInfo`. -/
structure ExtendField where
  responseDateFormat : String
  responseTimeFormat : String
  referenceNo : String
  operatorName : String
  offlineErrorCode : String
  offlineErrorMsg : String
deriving DecidableEq, Repr

/-- Source `globalInfo` block (`CryptoUtils.buildGlobalInfo`). -/
structure GlobalInfo where
  appId : String
  version : String
  dataExchangeId : String
  interfaceCode : String
  requestCode : String
  requestTime : String
  responseCode : String
  userName : String
  deviceMAC : String
  deviceNo : String
  tin : String
  brn : String
  taxpayerID : String
  longitude : String
  latitude : String
  agentType : String
  extendField : ExtendField
deriving DecidableEq, Repr

/-- Source `returnStateInfo` block. -/
structure ReturnState where
  returnCode : String
  returnMessage : String
deriving DecidableEq, Repr

/-- A full request envelope. -/
structure Envelope where
  data : EnvelopeData
  globalInfo : GlobalInfo
  returnStateInfo : ReturnState
deriving DecidableEq, Repr

/-- Source `CryptoUtils.buildGlobalInfo`. The random `dataExchangeId` and the
clock-dependent `requestTime` are inputs `dxId` and `reqTime`. -/
def buildGlobalInfo (interfaceCode tin deviceNo brn user longitude latitude
    taxpayerId dxId reqTime : String) : GlobalInfo :=
  { appId := "AP04"
    version := "1.1.20191201"
    dataExchangeId := dxId
    interfaceCode := interfaceCode
    requestCode := "TP"
    requestTime := reqTime
    responseCode := "TA"
    userName := user
    deviceMAC := "FFFFFFFFFFFF"
    deviceNo := deviceNo
    tin := tin
    brn := brn
    taxpayerID := if taxpayerId = "" then "1" else taxpayerId
    longitude := longitude
    latitude := latitude
    agentType := "0"
    extendField :=
      { responseDateFormat := "dd/MM/yyyy"
        responseTimeFormat := "dd/MM/yyyy HH:mm:ss"
        referenceNo := ""
        operatorName := user
        offlineErrorCode := ""
        offlineErrorMsg := "" } }

/-- Source `CryptoUtils.buildEncryptedRequest`: stringify the payload, AES-ECB
encrypt it, sign the encrypted base64 text with the private key, and fix
`dataDescription = {codeType:'1', encryptCode:'2', zipCode:'0'}`.
`stringify` models `JSON.stringify`; `sign` models `signRsaSha1` keyed by
the private key. -/
def buildEncryptedRequest {β : Type} (stringify : β → String)
    (blockEnc : List Nat → List Nat → List Nat)
    (b64e : List Nat → String) (utf8e : String → List Nat)
    (sign : String → String → String)
    (content : β) (aesKey interfaceCode tin deviceNo brn privateKey taxpayerId
      dxId reqTime : String) : Except Err Envelope :=
  let jsonContent := stringify content
  match encryptAesEcb blockEnc b64e utf8e jsonContent aesKey with
  | .error e => .error e
  | .ok encrypted =>
    let signature := sign privateKey encrypted
    .ok
      { data :=
          { content := encrypted
            signature := signature
            dataDescription := { codeType := "1", encryptCode := "2", zipCode := "0" } }
        globalInfo := buildGlobalInfo interfaceCode tin deviceNo brn "admin"
          "32.5825" "0.3476" taxpayerId dxId reqTime
        returnStateInfo := { returnCode := "", returnMessage := "" } }

/-- Source `CryptoUtils.buildUnencryptedRequest`: a payload with at least one key
is stringified and base64-encoded (`b64eS` models
`Buffer.from(s).toString('base64')`) and signed only if a private key is
supplied; an empty payload yields empty content and signature. The payload
is an association list (`Object.keys(content).length > 0` is `content ≠ []`). -/
def buildUnencryptedRequest (stringify : List (String × String) → String)
    (b64eS : String → String) (sign : String → String → String)
    (content : List (String × String))
    (interfaceCode tin deviceNo brn : String) (privateKey : Option String)
    (taxpayerId dxId reqTime : String) : Envelope :=
  let contentB64 := if content = [] then "" else b64eS (stringify content)
  let signature :=
    if content = [] then ""
    else if falsyStr privateKey then "" else sign (privateKey.getD "") contentB64
  { data :=
      { content := contentB64
        signature := signature
        dataDescription := { codeType := "0", encryptCode := "1", zipCode := "0" } }
    globalInfo := buildGlobalInfo interfaceCode tin deviceNo brn "admin"
      "32.5825" "0.3476" taxpayerId dxId reqTime
    returnStateInfo := { returnCode := "", returnMessage := "" } }

/- =========================================
 * unwrapResponse
 * ========================================= -/

/-- Incoming `dataDescription` with possibly-missing fields. -/
structure RDataDescription where
  codeType : Option String
  encryptCode : Option String
  zipCode : Option String
deriving DecidableEq, Repr

/-- Incoming `data` section with possibly-missing fields. -/
structure RData where
  content : Option String
  dataDescription : Option RDataDescription
deriving DecidableEq, Repr

/-- An incoming response envelope (only the fields `unwrapResponse` reads). -/
structure RespEnvelope where
  data : Option RData
deriving DecidableEq, Repr

/-- Source `CryptoUtils.unwrapResponse`. Returns `.ok none` when the envelope is
returned unchanged (empty content), and `.ok (some v)` when
`data.content` is replaced by the parsed value `v` (`jsonParse` models
`JSON.parse`); all other envelope fields are never modified by the source.
Any failure is wrapped as an `EncryptionException` carrying the original
message. -/
def unwrapResponse {α : Type} (blockDec : List Nat → List Nat → List Nat)
    (gunzip : List Nat → Except String (List Nat))
    (b64d : String → List Nat) (utf8e : String → List Nat) (utf8d : List Nat → String)
    (jsonParse : String → Except String α)
    (responseJson : RespEnvelope) (aesKey : Option String) : Except Err (Option α) :=
  let dataSection := responseJson.data
  let contentB64 := jsOr (dataSection.bind (·.content)) ""
  if contentB64 = "" then .ok none
  else
    let dataDesc := (dataSection.bind (·.dataDescription)).getD ⟨none, none, none⟩
    let codeType := jsOr dataDesc.codeType "0"
    let encryptCode := jsOr dataDesc.encryptCode "0"
    let zipCode := jsOr dataDesc.zipCode "0"
    let contentStrRes : Except String String :=
      if codeType = "1" then
        if falsyStr aesKey then .error "Encrypted response but no AES key provided"
        else
          match decryptAesEcb blockDec gunzip b64d utf8e utf8d contentB64 aesKey
              encryptCode zipCode with
          | .ok s => .ok s
          | .error e => .error e.message
      else
        let decodedBytes := b64d contentB64
        match (if zipCode = "1" then gunzip decodedBytes else .ok decodedBytes) with
        | .ok bs => .ok (utf8d bs)
        | .error m => .error m
    match (match contentStrRes with
           | .ok s => jsonParse s
           | .error m => .error m) with
    | .ok decodedContent => .ok (some decodedContent)
    | .error m => .error (.encryption ("Response processing failed: " ++ m))

/- =========================================
 * KeyClient (src/key_client.ts)
 * ========================================= -/

/-- The fields of the parsed T104 content that `fetchAesKey` reads: the
encrypted-AES-key field under its two historical spellings. -/
structure ContentJson where
  passowrdDes : Option String
  passwordDes : Option String
deriving DecidableEq, Repr

/-- Source `returnStateInfo` of a T104 response, with possibly-missing fields. -/
structure T104ReturnState where
  returnMessage : Option String
  returnCode : Option String
deriving DecidableEq, Repr

/-- Source `data` section of a T104 response. -/
structure T104Data where
  content : Option String
deriving DecidableEq, Repr

/-- A T104 handshake response as received from the network. -/
structure T104Resp where
  returnStateInfo : Option T104ReturnState
  data : Option T104Data
deriving DecidableEq, Repr

/-- The mutable fields of `KeyClient`: the lazily-loaded private key (as an
opaque handle string) and the cached AES key (hex), its fetch timestamp
(epoch seconds) and the decoded handshake content. -/
structure KeyState where
  privateKey : Option String
  aesKey : Option String
  aesKeyFetchedAt : Option Nat
  aesKeyContentJson : Option ContentJson
deriving DecidableEq, Repr

/-- A freshly constructed `KeyClient`. -/
def initialKeyState : KeyState :=
  { privateKey := none, aesKey := none, aesKeyFetchedAt := none, aesKeyContentJson := none }

/-- Constructor arguments of `KeyClient` used by the key exchange. -/
structure KeyClientConfig where
  tin : String
  deviceNo : String
  brn : String
  taxpayerId : String
  sandbox : Bool
deriving DecidableEq, Repr

/-- Source `KeyClient._aesKeyTtlSeconds` (23 hours). -/
def ttlSeconds : Nat := 23 * 60 * 60

/-- Source `KeyClient.T104_ENDPOINT_TEST`. -/
def T104_ENDPOINT_TEST : String := "https://efristest.ura.go.ug/efrisws/ws/taapp/getInformation"

/-- Source `KeyClient.T104_ENDPOINT_PROD`. -/
def T104_ENDPOINT_PROD : String := "https://efrisws.ura.go.ug/ws/taapp/getInformation"

/-- Source `KeyClient.getEndpoint`. -/
def getEndpoint (cfg : KeyClientConfig) : String :=
  if cfg.sandbox then T104_ENDPOINT_TEST else T104_ENDPOINT_PROD

/-- The external primitives `KeyClient.fetchAesKey` depends on:
`JSON.stringify` for the handshake payload, string base64, RSA-SHA1
signing keyed by the private key, base64 decoding, UTF-8 decoding,
`JSON.parse` of the T104 content, and RSA `privateDecrypt` keyed by the
private key. -/
structure Prims where
  stringifyC : List (String × String) → String
  b64eS : String → String
  sign : String → String → String
  b64d : String → List Nat
  utf8d : List Nat → String
  parseContent : String → Except String ContentJson
  rsaDec : String → List Nat → Except String (List Nat)

/-- Source `KeyClient.forgetAesKey`: clear key, timestamp and decoded content. -/
def forgetAesKey (st : KeyState) : KeyState :=
  { st with aesKey := none, aesKeyFetchedAt := none, aesKeyContentJson := none }

/-- Source `KeyClient.loadPrivateKey`: return the cached key, else load from the
PFX container (`pfxLoad` models `loadPrivateKeyFromPfx`, which raises
`AuthenticationException` on failure). -/
def loadPrivateKeyRes (st : KeyState) (pfxLoad : Except String String) :
    Except String String :=
  match st.privateKey with
  | some pk => .ok pk
  | none => pfxLoad

/-- The key-length normalization inside `fetchAesKey` (key_client.ts lines
141-152): an 8-byte candidate is doubled and truncated to 16; 16/24/32 are
used as-is; anything else is truncated to its first 16 bytes; if the result
is still not 16/24/32 bytes, `EncryptionException`. -/
def fetchKeyNormalize (cand : List Nat) : Except String (List Nat) :=
  let aesKey :=
    if cand.length = 8 then (cand ++ cand).take 16
    else if cand.length = 16 ∨ cand.length = 24 ∨ cand.length = 32 then cand
    else cand.take 16
  if aesKey.length = 16 ∨ aesKey.length = 24 ∨ aesKey.length = 32 then .ok aesKey
  else .error ("Cannot use AES key of length " ++ toString aesKey.length)

/-- The AES-key extraction block of `fetchAesKey` (the `try` block at
key_client.ts lines 122-164): read `data.content`, base64-decode and parse
it, read the encrypted key under either field spelling, base64-decode it,
RSA-decrypt it, re-interpret the plaintext as base64 when possible, and
normalize the key length. Returns the hex-encoded key and the decoded
content. -/
def extractAesKey (p : Prims) (pk : String) (respJson : T104Resp) :
    Except String (String × ContentJson) :=
  let contentB64 := jsOr (respJson.data.bind (·.content)) ""
  if contentB64 = "" then .error "Missing content in T104 response"
  else
    match p.parseContent (p.utf8d (p.b64d contentB64)) with
    | .error m => .error m
    | .ok contentJson =>
      let encryptedAesB64 :=
        match contentJson.passowrdDes with
        | some v => some v
        | none => contentJson.passwordDes
      if falsyStr encryptedAesB64 then .error "Missing AES key field in T104 response"
      else
        match p.rsaDec pk (p.b64d (encryptedAesB64.getD "")) with
        | .error m => .error m
        | .ok aesKeyRaw =>
          let candB64 := p.b64d (p.utf8d aesKeyRaw)
          let aesKeyCandidate := if candB64.length = 0 then aesKeyRaw else candB64
          match fetchKeyNormalize aesKeyCandidate with
          | .error m => .error m
          | .ok aesKey => .ok (hexEncode aesKey, contentJson)

/-- The unencrypted T104 handshake payload built by `fetchAesKey`
(key_client.ts lines 96-98): `buildUnencryptedRequest([], 'T104', tin,
deviceNo, brn, privateKey, taxpayerId)` — note the payload is the empty
array. -/
def t104Payload (p : Prims) (cfg : KeyClientConfig) (pk dxId reqTime : String) : Envelope :=
  buildUnencryptedRequest p.stringifyC p.b64eS p.sign [] "T104"
    cfg.tin cfg.deviceNo cfg.brn (some pk) cfg.taxpayerId dxId reqTime

/-- The handshake path of `fetchAesKey` (cache miss): load the private key,
post the T104 payload (`net` models the axios exchange keyed by the exact
payload sent), check `returnStateInfo.returnMessage`, extract the AES key,
and cache key + timestamp + content together. Errors leave the cached AES
key state untouched. -/
def fetchAesKeyHandshake (p : Prims) (cfg : KeyClientConfig)
    (pfxLoad : Except String String) (net : Envelope → Except String T104Resp)
    (dxId reqTime : String) (st : KeyState) (now : Nat) :
    Except Err String × KeyState :=
  match loadPrivateKeyRes st pfxLoad with
  | .error e => (.error (.authentication e), st)
  | .ok pk =>
    let st1 := { st with privateKey := some pk }
    match net (t104Payload p cfg pk dxId reqTime) with
    | .error e => (.error (.api ("T104 connection error: " ++ e)), st1)
    | .ok respJson =>
      let returnState := respJson.returnStateInfo
      if (returnState.bind (·.returnMessage)).getD "" ≠ "SUCCESS" then
        (.error (.api ("T104 failed: " ++
          (returnState.bind (·.returnMessage)).getD "Unknown error")), st1)
      else
        match extractAesKey p pk respJson with
        | .error m => (.error (.encryption ("Failed to extract AES key: " ++ m)), st1)
        | .ok (hexKey, contentJson) =>
          (.ok hexKey,
           { st1 with
              aesKey := some hexKey
              aesKeyFetchedAt := some now
              aesKeyContentJson := some contentJson })

/-- Source `KeyClient.fetchAesKey(force)`: if not forced and a cached key and a
cached timestamp exist (JS truthiness: non-empty key, non-zero timestamp)
and `now - fetchedAt < ttl`, return the cached key with no network call;
otherwise perform the T104 handshake. -/
def fetchAesKey (p : Prims) (cfg : KeyClientConfig)
    (pfxLoad : Except String String) (net : Envelope → Except String T104Resp)
    (dxId reqTime : String) (st : KeyState) (force : Bool) (now : Nat) :
    Except Err String × KeyState :=
  match st.aesKey, st.aesKeyFetchedAt with
  | some k, some t =>
    if force = false ∧ k ≠ "" ∧ t ≠ 0 ∧ now - t < ttlSeconds then (.ok k, st)
    else fetchAesKeyHandshake p cfg pfxLoad net dxId reqTime st now
  | some _, none => fetchAesKeyHandshake p cfg pfxLoad net dxId reqTime st now
  | none, _ => fetchAesKeyHandshake p cfg pfxLoad net dxId reqTime st now

/-- The all-or-nothing invariant on the cached session key: the key value
and the fetch timestamp are present or absent together. -/
def cacheInv (st : KeyState) : Prop :=
  st.aesKey.isSome = st.aesKeyFetchedAt.isSome

/- =========================================
 * Claim C1: AES-ECB encrypt/decrypt round trip
 * ========================================= -/

/-- A concrete "block cipher" for witnesses: reverse the block (a key-
independent involution that preserves length). -/
def revBlock (_key b : List Nat) : List Nat := b.reverse

/-- A concrete UTF-8 encoder for witnesses (valid on ASCII inputs). -/
def charBytes (s : String) : List Nat := s.data.map Char.toNat

/-- A concrete UTF-8 decoder for witnesses (valid on ASCII byte lists). -/
def bytesChars (l : List Nat) : String := String.mk (l.map Char.ofNat)

/-- A gzip stand-in for witnesses (never invoked on the tested paths). -/
def okGunzip (b : List Nat) : Except String (List Nat) := .ok b

/-- A 16-character non-hex key for witnesses: normalizes to its 16 UTF-8
bytes. -/
def keyZ : String := "zzzzzzzzzzzzzzzz"

/-- Concrete collaborators for the `KeyClient` witnesses. -/
def witPrims : Prims :=
  { stringifyC := fun _ => "[]"
    b64eS := fun s => s
    sign := fun _ _ => "SIGNATURE"
    b64d := fun _ => []
    utf8d := fun _ => ""
    parseContent := fun _ => .error "bad json"
    rsaDec := fun _ _ => .error "bad rsa" }

/-- Concrete `KeyClient` constructor arguments for witnesses. -/
def witCfg : KeyClientConfig :=
  { tin := "1014409846", deviceNo := "1014409846_01", brn := "", taxpayerId := "1",
    sandbox := true }

/-- A fully-populated cached state for witnesses. -/
def witState : KeyState :=
  { privateKey := none
    aesKey := some "00112233445566778899aabbccddeeff"
    aesKeyFetchedAt := some 1000
    aesKeyContentJson := some ⟨some "a2V5", none⟩ }

/-- A concrete `codeType='1'` response envelope whose `encryptCode` is NOT
`'2'`. -/
def cex4Resp : RespEnvelope :=
  ⟨some ⟨some "QQ==", some ⟨some "1", some "1", some "0"⟩⟩⟩

theorem ecbMapGo_fuel (f : List Nat → List Nat) :
    ∀ (fuel : Nat) (data : List Nat), data.length ≤ fuel →
      ecbMapGo f fuel data = ecbMapGo f data.length data := by
  intro fuel
  induction fuel using Nat.strong_induction_on with
  | _ fuel ih =>
    intro data hle
    match data with
    | [] =>
      cases fuel <;> rfl
    | a :: l =>
      match fuel, hle with
      | fuel' + 1, hle =>
        have hlen : (a :: l).length = l.length + 1 := rfl
        have hdl : ((a :: l).drop 16).length ≤ fuel' := by
          simp only [List.length_drop, hlen]
          omega
        have hdl2 : ((a :: l).drop 16).length ≤ l.length := by
          simp only [List.length_drop, hlen]
          omega
        show f ((a :: l).take 16) ++ ecbMapGo f fuel' ((a :: l).drop 16)
          = ecbMapGo f (l.length + 1) (a :: l)
        have h1 : ecbMapGo f fuel' ((a :: l).drop 16)
            = ecbMapGo f ((a :: l).drop 16).length ((a :: l).drop 16) :=
          ih fuel' (by omega) _ hdl
        have h2 : ecbMapGo f l.length ((a :: l).drop 16)
            = ecbMapGo f ((a :: l).drop 16).length ((a :: l).drop 16) :=
          ih l.length (by omega) _ hdl2
        show f ((a :: l).take 16) ++ ecbMapGo f fuel' ((a :: l).drop 16)
          = f ((a :: l).take 16) ++ ecbMapGo f l.length ((a :: l).drop 16)
        rw [h1, h2]

theorem ecbMap_ne (f : List Nat → List Nat) (data : List Nat) (h : data ≠ []) :
    ecbMap f data = f (data.take 16) ++ ecbMap f (data.drop 16) := by
  match data with
  | a :: l =>
    show ecbMapGo f (l.length + 1) (a :: l) = _
    show f ((a :: l).take 16) ++ ecbMapGo f l.length ((a :: l).drop 16) = _
    rw [ecbMapGo_fuel f l.length ((a :: l).drop 16)
      (by simp only [List.length_drop, List.length_cons]; omega)]
    rfl

theorem pkcs7_padLen_pos (buf : List Nat) :
    1 ≤ AES_BLOCK_SIZE - buf.length % AES_BLOCK_SIZE := by
  have h : buf.length % AES_BLOCK_SIZE < AES_BLOCK_SIZE :=
    Nat.mod_lt _ (by simp [AES_BLOCK_SIZE])
  omega

theorem pkcs7Pad_length_mod (buf : List Nat) :
    (pkcs7Pad buf).length % AES_BLOCK_SIZE = 0 := by
  simp only [pkcs7Pad, List.length_append, List.length_replicate, AES_BLOCK_SIZE]
  omega

theorem pkcs7Unpad_pkcs7Pad (x : List Nat) : pkcs7Unpad (pkcs7Pad x) = .ok x := by
  have hlt : x.length % AES_BLOCK_SIZE < AES_BLOCK_SIZE :=
    Nat.mod_lt _ (by simp [AES_BLOCK_SIZE])
  set n := AES_BLOCK_SIZE - x.length % AES_BLOCK_SIZE with hn
  have hn1 : 1 ≤ n := pkcs7_padLen_pos x
  have hn16 : n ≤ AES_BLOCK_SIZE := Nat.sub_le _ _
  have hpad : pkcs7Pad x = x ++ List.replicate n n := rfl
  rw [hpad]
  have hlen : (x ++ List.replicate n n).length = x.length + n := by
    simp [List.length_append, List.length_replicate]
  have hlast : (x ++ List.replicate n n).getD ((x ++ List.replicate n n).length - 1) 0 = n := by
    rw [hlen]
    have hidx : x.length + n - 1 = x.length + (n - 1) := by omega
    rw [hidx]
    rw [List.getD_eq_getElem?_getD, List.getElem?_append_right (by omega)]
    have : x.length + (n - 1) - x.length = n - 1 := by omega
    rw [this, List.getElem?_replicate, if_pos (by omega)]
    rfl
  rw [pkcs7Unpad]
  rw [if_neg (by rw [hlen]; omega)]
  simp only [hlast]
  rw [if_neg (by omega)]
  have hdrop : (x ++ List.replicate n n).drop ((x ++ List.replicate n n).length - n)
      = List.replicate n n := by
    rw [hlen]
    have : x.length + n - n = x.length := by omega
    rw [this]
    exact List.drop_left x (List.replicate n n)
  have htake : (x ++ List.replicate n n).take ((x ++ List.replicate n n).length - n) = x := by
    rw [hlen]
    have : x.length + n - n = x.length := by omega
    rw [this]
    exact List.take_left x (List.replicate n n)
  rw [hdrop, htake]
  simp

theorem ecbMap_nil (f : List Nat → List Nat) : ecbMap f [] = [] := rfl

theorem ecbMap_append16 (f : List Nat → List Nat) (a b : List Nat) (ha : a.length = 16) :
    ecbMap f (a ++ b) = f a ++ ecbMap f b := by
  have hne : a ++ b ≠ [] := by
    intro h
    have := congrArg List.length h
    simp [ha] at this
  rw [ecbMap_ne f _ hne, List.take_left' ha, List.drop_left' ha]

theorem ecbMap_length (f : List Nat → List Nat)
    (hf : ∀ b : List Nat, b.length = 16 → (f b).length = 16) :
    ∀ data : List Nat, data.length % 16 = 0 → (ecbMap f data).length = data.length := by
  have H : ∀ m, ∀ data : List Nat, data.length = m → m % 16 = 0 →
      (ecbMap f data).length = data.length := by
    intro m
    induction m using Nat.strong_induction_on with
    | _ m ih =>
      intro data hdl hm
      by_cases hd : data = []
      · subst hd; simp [ecbMap_nil]
      · have hpos : 0 < data.length := List.length_pos.mpr hd
        have h16 : 16 ≤ data.length := by
          rcases Nat.lt_or_ge data.length 16 with h | h
          · have := Nat.mod_eq_of_lt h
            omega
          · exact h
        have htake : (data.take 16).length = 16 := by
          simp [List.length_take]; omega
        have hsplit : data = data.take 16 ++ data.drop 16 := (List.take_append_drop 16 data).symm
        rw [ecbMap_ne f data hd]
        have hdroplen : (data.drop 16).length = data.length - 16 := by simp
        have hrec : (ecbMap f (data.drop 16)).length = (data.drop 16).length := by
          apply ih (data.length - 16) (by omega) _ (by omega)
          omega
        simp only [List.length_append, hf _ htake, hrec, hdroplen]
        omega
  intro data hmod
  exact H data.length data rfl (by omega)

theorem ecbMap_ecbMap_inv (f g : List Nat → List Nat)
    (hflen : ∀ b : List Nat, b.length = 16 → (f b).length = 16)
    (hinv : ∀ b : List Nat, b.length = 16 → g (f b) = b) :
    ∀ data : List Nat, data.length % 16 = 0 → ecbMap g (ecbMap f data) = data := by
  have H : ∀ m, ∀ data : List Nat, data.length = m → m % 16 = 0 →
      ecbMap g (ecbMap f data) = data := by
    intro m
    induction m using Nat.strong_induction_on with
    | _ m ih =>
      intro data hdl hm
      by_cases hd : data = []
      · subst hd; simp [ecbMap_nil]
      · have hpos : 0 < data.length := List.length_pos.mpr hd
        have h16 : 16 ≤ data.length := by
          rcases Nat.lt_or_ge data.length 16 with h | h
          · have := Nat.mod_eq_of_lt h
            omega
          · exact h
        have htake : (data.take 16).length = 16 := by
          simp [List.length_take]; omega
        have hftake : (f (data.take 16)).length = 16 := hflen _ htake
        have hdroplen : (data.drop 16).length = data.length - 16 := by simp
        have hrec : ecbMap g (ecbMap f (data.drop 16)) = data.drop 16 := by
          apply ih (data.length - 16) (by omega) _ (by omega)
          omega
        rw [ecbMap_ne f data hd, ecbMap_append16 g _ _ hftake, hinv _ htake, hrec,
          List.take_append_drop]
  intro data hmod
  exact H data.length data rfl (by omega)

/- =========================================
 * Claims C2, C5, C10
 * ========================================= -/

/-- C2: for every byte sequence `x`, `pkcs7Unpad (pkcs7Pad x) = x`; the pad
appends `n` bytes of value `n` with `n = 16 - (len % 16)`, so `n ∈ [1, 16]`
and a full extra block is appended when the input is block-aligned.
(Proved for all lengths, which subsumes the claimed lengths 0..64.) -/
theorem pkcs7_pad_unpad_roundtrip (x : List Nat) :
    1 ≤ AES_BLOCK_SIZE - x.length % AES_BLOCK_SIZE ∧
    AES_BLOCK_SIZE - x.length % AES_BLOCK_SIZE ≤ AES_BLOCK_SIZE ∧
    (x.length % AES_BLOCK_SIZE = 0 →
      AES_BLOCK_SIZE - x.length % AES_BLOCK_SIZE = AES_BLOCK_SIZE) ∧
    pkcs7Pad x = x ++ List.replicate (AES_BLOCK_SIZE - x.length % AES_BLOCK_SIZE)
      (AES_BLOCK_SIZE - x.length % AES_BLOCK_SIZE) ∧
    pkcs7Unpad (pkcs7Pad x) = .ok x := by
  refine ⟨pkcs7_padLen_pos x, Nat.sub_le _ _, ?_, rfl, pkcs7Unpad_pkcs7Pad x⟩
  intro h
  omega

/-- C2 witness at a concrete block-aligned input. -/
theorem pkcs7_pad_unpad_roundtrip_witness :
    ([1, 2, 3] : List Nat).length % AES_BLOCK_SIZE ≠ 0 ∧
    pkcs7Pad [1, 2, 3] = [1, 2, 3] ++ List.replicate 13 13 ∧
    pkcs7Unpad (pkcs7Pad [1, 2, 3]) = .ok [1, 2, 3] := by
  have h := pkcs7_pad_unpad_roundtrip [1, 2, 3]
  exact ⟨by decide, by simpa using h.2.2.2.1, h.2.2.2.2⟩

/-- C5: `pkcs7Unpad` performs strict verification: it errors on empty
input, on a claimed pad length outside `[1, 16]`, and when the trailing
bytes do not all equal that length; a success always means the input was
exactly the result followed by an intact PKCS7 pad. -/
theorem pkcs7Unpad_strict (data : List Nat) :
    (data.length = 0 → exceptIsError (pkcs7Unpad data) = true) ∧
    (data.length ≠ 0 →
      (data.getD (data.length - 1) 0 < 1 ∨ data.getD (data.length - 1) 0 > AES_BLOCK_SIZE) →
      exceptIsError (pkcs7Unpad data) = true) ∧
    (data.length ≠ 0 →
      data.drop (data.length - data.getD (data.length - 1) 0) ≠
        List.replicate (data.getD (data.length - 1) 0) (data.getD (data.length - 1) 0) →
      exceptIsError (pkcs7Unpad data) = true) ∧
    (∀ r : List Nat, pkcs7Unpad data = .ok r →
      1 ≤ data.getD (data.length - 1) 0 ∧ data.getD (data.length - 1) 0 ≤ AES_BLOCK_SIZE ∧
      data = r ++ List.replicate (data.getD (data.length - 1) 0) (data.getD (data.length - 1) 0)) := by
  refine ⟨?_, ?_, ?_, ?_⟩
  · intro h
    rw [pkcs7Unpad, if_pos h]
    rfl
  · intro h hbad
    rw [pkcs7Unpad, if_neg h, if_pos hbad]
    rfl
  · intro h hbad
    rw [pkcs7Unpad, if_neg h]
    by_cases hrange : data.getD (data.length - 1) 0 < 1 ∨ data.getD (data.length - 1) 0 > AES_BLOCK_SIZE
    · rw [if_pos hrange]; rfl
    · rw [if_neg hrange, if_pos hbad]; rfl
  · intro r hok
    rw [pkcs7Unpad] at hok
    by_cases h0 : data.length = 0
    · rw [if_pos h0] at hok; cases hok
    · rw [if_neg h0] at hok
      by_cases hrange : data.getD (data.length - 1) 0 < 1 ∨ data.getD (data.length - 1) 0 > AES_BLOCK_SIZE
      · rw [if_pos hrange] at hok; cases hok
      · rw [if_neg hrange] at hok
        by_cases hpad : data.drop (data.length - data.getD (data.length - 1) 0) ≠
            List.replicate (data.getD (data.length - 1) 0) (data.getD (data.length - 1) 0)
        · rw [if_pos hpad] at hok; cases hok
        · rw [if_neg hpad] at hok
          push_neg at hpad hrange
          have hr : r = data.take (data.length - data.getD (data.length - 1) 0) := by
            cases hok; rfl
          refine ⟨by omega, hrange.2, ?_⟩
          rw [hr, ← hpad, List.take_append_drop]

/-- C5 witness: corrupted trailing pad byte is rejected; a valid pad is
decomposed exactly. -/
theorem pkcs7Unpad_strict_witness :
    exceptIsError (pkcs7Unpad [1, 2, 3, 2]) = true ∧
    (pkcs7Unpad [1, 2, 2] = .ok [1] ∧
      ([1, 2, 2] : List Nat) = [1] ++ List.replicate 2 2) := by
  constructor
  · exact (pkcs7Unpad_strict [1, 2, 3, 2]).2.2.1 (by decide) (by decide)
  · have h := (pkcs7Unpad_strict [1, 2, 2]).2.2.2 [1] (by decide)
    exact ⟨by decide, by simpa using h.2.2⟩

/-- C10: `decryptAesEcb` on the empty ciphertext string returns the empty
string immediately, for every `encryptCode`, `zipCode` and key argument
(including no key), and regardless of the external primitives: the
gzip-magic, key-requirement and padding checks are all skipped. -/
theorem decryptAesEcb_empty_input (blockDec : List Nat → List Nat → List Nat)
    (gunzip : List Nat → Except String (List Nat))
    (b64d : String → List Nat) (utf8e : String → List Nat) (utf8d : List Nat → String)
    (key : Option String) (encryptCode zipCode : String) :
    decryptAesEcb blockDec gunzip b64d utf8e utf8d "" key encryptCode zipCode = .ok "" := by
  rw [decryptAesEcb, if_pos rfl]

/- =========================================
 * Envelope structures and builders
 * ========================================= -/

/-- C1: for every key whose normalized form is 16/24/32 bytes and every
plaintext, decrypting `encryptAesEcb plaintext key` with
`decryptAesEcb _ key "2" "0"` returns the plaintext. The external
primitives are quantified, assuming only their true properties: the block
decryption inverts the block encryption on 16-byte blocks, block encryption
preserves block length, base64 decoding inverts base64 encoding, base64 of
a non-empty buffer is non-empty, and UTF-8 decoding inverts encoding. -/
theorem encryptAesEcb_decryptAesEcb_roundtrip
    (blockEnc blockDec : List Nat → List Nat → List Nat)
    (gunzip : List Nat → Except String (List Nat))
    (b64e : List Nat → String) (b64d : String → List Nat)
    (utf8e : String → List Nat) (utf8d : List Nat → String)
    (plaintext key : String) (keyBuf ctBytes : List Nat)
    (hkb : keyBuf = normalizeAesKey utf8e key)
    (hct : ctBytes = ecbMap (blockEnc keyBuf) (pkcs7Pad (utf8e plaintext)))
    (hkeyne : key ≠ "")
    (hkeylen : keyBuf.length = 16 ∨ keyBuf.length = 24 ∨ keyBuf.length = 32)
    (hblen : ∀ b : List Nat, b.length = 16 → (blockEnc keyBuf b).length = 16)
    (hbinv : ∀ b : List Nat, b.length = 16 → blockDec keyBuf (blockEnc keyBuf b) = b)
    (hb64 : b64d (b64e ctBytes) = ctBytes)
    (hctne : b64e ctBytes ≠ "")
    (hutf8 : utf8d (utf8e plaintext) = plaintext) :
    encryptAesEcb blockEnc b64e utf8e plaintext key = .ok (b64e ctBytes) ∧
    decryptAesEcb blockDec gunzip b64d utf8e utf8d (b64e ctBytes) (some key) "2" "0"
      = .ok plaintext := by
  have hctlen : ctBytes.length = (pkcs7Pad (utf8e plaintext)).length := by
    rw [hct]
    exact ecbMap_length (blockEnc keyBuf) hblen _
      (by simpa [AES_BLOCK_SIZE] using pkcs7Pad_length_mod (utf8e plaintext))
  have hmod : ctBytes.length % AES_BLOCK_SIZE = 0 := by
    rw [hctlen]
    exact pkcs7Pad_length_mod (utf8e plaintext)
  have hdec : ecbMap (blockDec keyBuf) ctBytes = pkcs7Pad (utf8e plaintext) := by
    rw [hct]
    exact ecbMap_ecbMap_inv (blockEnc keyBuf) (blockDec keyBuf) hblen hbinv _
      (by simpa [AES_BLOCK_SIZE] using pkcs7Pad_length_mod (utf8e plaintext))
  constructor
  · rw [encryptAesEcb]
    simp only [← hkb]
    rw [if_pos hkeylen, ← hct]
  · rw [decryptAesEcb, if_neg hctne]
    simp only [hb64]
    rw [if_neg (by decide : ¬ ("0" : String) = "1")]
    have hfalsy : falsyStr (some key) = false := by
      simp [falsyStr, hkeyne]
    simp only [hfalsy, Bool.false_eq_true, if_false, if_true, Option.getD_some, ← hkb]
    rw [if_neg (by omega : ¬ ctBytes.length % AES_BLOCK_SIZE ≠ 0)]
    rw [hdec, pkcs7Unpad_pkcs7Pad]
    show Except.ok (utf8d (utf8e plaintext)) = .ok plaintext
    rw [hutf8]

/-- C1 witness: a concrete round trip through the embedding with the
reverse-block cipher, hex transport and ASCII text. -/
theorem encryptAesEcb_decryptAesEcb_roundtrip_witness :
    encryptAesEcb revBlock hexEncode charBytes "Hi" keyZ
      = .ok (hexEncode (ecbMap (revBlock (normalizeAesKey charBytes keyZ))
          (pkcs7Pad (charBytes "Hi")))) ∧
    decryptAesEcb revBlock okGunzip hexDecode charBytes bytesChars
      (hexEncode (ecbMap (revBlock (normalizeAesKey charBytes keyZ))
          (pkcs7Pad (charBytes "Hi")))) (some keyZ) "2" "0" = .ok "Hi" := by
  apply encryptAesEcb_decryptAesEcb_roundtrip revBlock revBlock okGunzip hexEncode
    hexDecode charBytes bytesChars "Hi" keyZ (normalizeAesKey charBytes keyZ)
    (ecbMap (revBlock (normalizeAesKey charBytes keyZ)) (pkcs7Pad (charBytes "Hi")))
    rfl rfl
  · decide
  · decide
  · intro b hb
    simp [revBlock, hb]
  · intro b _
    simp [revBlock]
  · decide
  · decide
  · decide

/- =========================================
 * Claim C3: key-length normalization policy
 * ========================================= -/

/-- C3: `fetchAesKey`'s key-length normalization: an 8-byte candidate is
doubled and truncated to 16 bytes; 16/24/32-byte candidates are unchanged;
any other length is truncated to its first 16 bytes; the
`EncryptionException` is raised exactly when the candidate is shorter than
16 bytes and not of length 8. -/
theorem fetchKeyNormalize_policy (cand : List Nat) :
    (cand.length = 8 → fetchKeyNormalize cand = .ok ((cand ++ cand).take 16)) ∧
    (cand.length = 16 ∨ cand.length = 24 ∨ cand.length = 32 →
      fetchKeyNormalize cand = .ok cand) ∧
    (cand.length ≠ 8 → ¬(cand.length = 16 ∨ cand.length = 24 ∨ cand.length = 32) →
      16 ≤ cand.length → fetchKeyNormalize cand = .ok (cand.take 16)) ∧
    ((∃ m, fetchKeyNormalize cand = .error m) ↔ cand.length < 16 ∧ cand.length ≠ 8) := by
  refine ⟨?_, ?_, ?_, ?_⟩
  · intro h8
    have hl : ((cand ++ cand).take 16).length = 16 := by
      simp only [List.length_take, List.length_append]
      omega
    simp only [fetchKeyNormalize]
    rw [if_pos h8, if_pos (Or.inl hl)]
  · intro hv
    have h8 : cand.length ≠ 8 := by rcases hv with h | h | h <;> omega
    simp only [fetchKeyNormalize]
    rw [if_neg h8, if_pos hv, if_pos hv]
  · intro h8 hnv h16
    have hl : (cand.take 16).length = 16 := by
      simp only [List.length_take]
      omega
    simp only [fetchKeyNormalize]
    rw [if_neg h8, if_neg hnv, if_pos (Or.inl hl)]
  · by_cases h8 : cand.length = 8
    · have hl : ((cand ++ cand).take 16).length = 16 := by
        simp only [List.length_take, List.length_append]
        omega
      simp only [fetchKeyNormalize]
      rw [if_pos h8, if_pos (Or.inl hl)]
      simp only [iff_iff_implies_and_implies]
      constructor
      · rintro ⟨m, hm⟩
        cases hm
      · intro h
        omega
    · by_cases hv : cand.length = 16 ∨ cand.length = 24 ∨ cand.length = 32
      · simp only [fetchKeyNormalize]
        rw [if_neg h8, if_pos hv, if_pos hv]
        constructor
        · rintro ⟨m, hm⟩
          cases hm
        · intro h
          rcases hv with h' | h' | h' <;> omega
      · by_cases h16 : 16 ≤ cand.length
        · have hl : (cand.take 16).length = 16 := by
            simp only [List.length_take]
            omega
          simp only [fetchKeyNormalize]
          rw [if_neg h8, if_neg hv, if_pos (Or.inl hl)]
          constructor
          · rintro ⟨m, hm⟩
            cases hm
          · intro h
            omega
        · have hl : (cand.take 16).length = cand.length := by
            simp only [List.length_take]
            omega
          have hno : ¬((cand.take 16).length = 16 ∨ (cand.take 16).length = 24 ∨
              (cand.take 16).length = 32) := by
            rw [hl]
            omega
          simp only [fetchKeyNormalize]
          rw [if_neg h8, if_neg hv, if_neg hno]
          constructor
          · intro _
            omega
          · intro _
            exact ⟨_, rfl⟩

/-- C3 witness: an 8-byte candidate is doubled; a 3-byte candidate fails. -/
theorem fetchKeyNormalize_policy_witness :
    fetchKeyNormalize [0, 1, 2, 3, 4, 5, 6, 7]
      = .ok [0, 1, 2, 3, 4, 5, 6, 7, 0, 1, 2, 3, 4, 5, 6, 7] ∧
    (∃ m, fetchKeyNormalize [9, 9, 9] = .error m) := by
  constructor
  · have h := (fetchKeyNormalize_policy [0, 1, 2, 3, 4, 5, 6, 7]).1 (by decide)
    simpa using h
  · exact ((fetchKeyNormalize_policy [9, 9, 9]).2.2.2).mpr (by decide)

/- =========================================
 * Claim C8: cache hit path of fetchAesKey
 * ========================================= -/

/-- C8: with `force = false`, a cached (truthy) key and timestamp, and
`now - fetchedAt < ttl`, `fetchAesKey` returns the cached key and the state
unchanged; the network (`net`) and all other collaborators are universally
quantified and unused, so no network call is made. -/
theorem fetchAesKey_cache_hit (p : Prims) (cfg : KeyClientConfig)
    (pfxLoad : Except String String) (net : Envelope → Except String T104Resp)
    (dxId reqTime : String) (st : KeyState) (now : Nat) (k : String) (t : Nat)
    (hk : st.aesKey = some k) (hkne : k ≠ "") (ht : st.aesKeyFetchedAt = some t)
    (htne : t ≠ 0) (httl : now - t < ttlSeconds) :
    fetchAesKey p cfg pfxLoad net dxId reqTime st false now = (.ok k, st) := by
  obtain ⟨pk0, ak, ft, cj⟩ := st
  simp only at hk ht
  subst hk ht
  simp only [fetchAesKey]
  rw [if_pos ⟨trivial, hkne, htne, httl⟩]

/-- C8 witness: a concrete cache hit returns the cached key unchanged. -/
theorem fetchAesKey_cache_hit_witness :
    fetchAesKey witPrims witCfg (.error "no pfx") (fun _ => .error "network down")
      "DX" "TIME" witState false 2000
      = (.ok "00112233445566778899aabbccddeeff", witState) :=
  fetchAesKey_cache_hit _ _ _ _ _ _ witState 2000 _ 1000 rfl (by decide) rfl
    (by decide) (by decide)

/- =========================================
 * Claim C7: the T104 handshake envelope
 * ========================================= -/

/-- C7 counterexample: with a loaded private key handle and a signing
primitive that always returns the non-empty string "SIGNATURE", the T104
handshake envelope built by `fetchAesKey` still has an empty
`data.signature`, because the handshake payload is the empty array and
`buildUnencryptedRequest` only signs non-empty content. -/
theorem t104Payload_unsigned_counterexample :
    witPrims.sign "PK" "anything" = "SIGNATURE" ∧
    (t104Payload witPrims witCfg "PK" "DX" "TIME").data.signature = "" := by
  constructor
  · rfl
  · rfl

/-- C7 amended: the handshake envelope misses the cache uses the fixed
interface code T104 and the caller's tax and device identifiers, with
`dataDescription = {codeType:'0', encryptCode:'1', zipCode:'0'}`; but since
the handshake payload is empty, its `data.content` and `data.signature` are
always the empty string, private key or not. `buildUnencryptedRequest`
signs only when the payload is non-empty and a (truthy) private key is
supplied. -/
theorem t104Payload_envelope (p : Prims) (cfg : KeyClientConfig)
    (pk dxId reqTime : String) :
    (t104Payload p cfg pk dxId reqTime).globalInfo.interfaceCode = "T104" ∧
    (t104Payload p cfg pk dxId reqTime).globalInfo.tin = cfg.tin ∧
    (t104Payload p cfg pk dxId reqTime).globalInfo.deviceNo = cfg.deviceNo ∧
    (t104Payload p cfg pk dxId reqTime).data.dataDescription = ⟨"0", "1", "0"⟩ ∧
    (t104Payload p cfg pk dxId reqTime).data.content = "" ∧
    (t104Payload p cfg pk dxId reqTime).data.signature = "" ∧
    (∀ content : List (String × String), content ≠ [] → ∀ k : String,
      (buildUnencryptedRequest p.stringifyC p.b64eS p.sign content "T104" cfg.tin
        cfg.deviceNo cfg.brn (some k) cfg.taxpayerId dxId reqTime).data.signature
        = if k = "" then "" else p.sign k (p.b64eS (p.stringifyC content))) := by
  refine ⟨rfl, rfl, rfl, rfl, rfl, rfl, ?_⟩
  intro content hne k
  simp only [buildUnencryptedRequest, if_neg hne]
  by_cases hk : k = ""
  · simp [falsyStr, hk]
  · simp [falsyStr, hk]

/-- C7 witness for the amended claim, at concrete arguments. -/
theorem t104Payload_envelope_witness :
    (t104Payload witPrims witCfg "PK" "DX" "TIME").globalInfo.interfaceCode = "T104" ∧
    (t104Payload witPrims witCfg "PK" "DX" "TIME").data.signature = "" ∧
    (buildUnencryptedRequest witPrims.stringifyC witPrims.b64eS witPrims.sign
      [("test", "1")] "T104" witCfg.tin witCfg.deviceNo witCfg.brn (some "PK")
      witCfg.taxpayerId "DX" "TIME").data.signature
      = if ("PK" : String) = "" then "" else witPrims.sign "PK" (witPrims.b64eS (witPrims.stringifyC [("test", "1")])) := by
  have h := t104Payload_envelope witPrims witCfg "PK" "DX" "TIME"
  exact ⟨h.1, h.2.2.2.2.2.1, h.2.2.2.2.2.2 [("test", "1")] (by decide) "PK"⟩

/- =========================================
 * Claim C9: buildEncryptedRequest
 * ========================================= -/

/-- C9: for every payload and valid AES key, `buildEncryptedRequest`
stringifies the payload, AES-ECB-encrypts the text, signs the *encrypted*
base64 text (not the plaintext), and assembles the envelope with
`dataDescription = {codeType:'1', encryptCode:'2', zipCode:'0'}`. -/
theorem buildEncryptedRequest_spec {β : Type} (stringify : β → String)
    (blockEnc : List Nat → List Nat → List Nat)
    (b64e : List Nat → String) (utf8e : String → List Nat)
    (sign : String → String → String) (content : β)
    (aesKey interfaceCode tin deviceNo brn privateKey taxpayerId dxId reqTime : String)
    (hkeylen : (normalizeAesKey utf8e aesKey).length = 16 ∨
      (normalizeAesKey utf8e aesKey).length = 24 ∨
      (normalizeAesKey utf8e aesKey).length = 32) :
    buildEncryptedRequest stringify blockEnc b64e utf8e sign content aesKey
        interfaceCode tin deviceNo brn privateKey taxpayerId dxId reqTime
      = .ok
        { data :=
            { content := b64e (ecbMap (blockEnc (normalizeAesKey utf8e aesKey))
                (pkcs7Pad (utf8e (stringify content))))
              signature := sign privateKey (b64e (ecbMap
                (blockEnc (normalizeAesKey utf8e aesKey))
                (pkcs7Pad (utf8e (stringify content)))))
              dataDescription := { codeType := "1", encryptCode := "2", zipCode := "0" } }
          globalInfo := buildGlobalInfo interfaceCode tin deviceNo brn "admin"
            "32.5825" "0.3476" taxpayerId dxId reqTime
          returnStateInfo := { returnCode := "", returnMessage := "" } } := by
  simp only [buildEncryptedRequest, encryptAesEcb]
  rw [if_pos hkeylen]

/-- C9 witness: a concrete encrypted envelope. -/
theorem buildEncryptedRequest_spec_witness :
    buildEncryptedRequest (fun n : Nat => toString n) revBlock hexEncode charBytes
        (fun _ d => "SIG:" ++ d) 7 keyZ "T109" "TIN" "DEV" "" "PK" "1" "DX" "TIME"
      = .ok
        { data :=
            { content := hexEncode (ecbMap (revBlock (normalizeAesKey charBytes keyZ))
                (pkcs7Pad (charBytes "7")))
              signature := "SIG:" ++ hexEncode (ecbMap
                (revBlock (normalizeAesKey charBytes keyZ)) (pkcs7Pad (charBytes "7")))
              dataDescription := { codeType := "1", encryptCode := "2", zipCode := "0" } }
          globalInfo := buildGlobalInfo "T109" "TIN" "DEV" "" "admin"
            "32.5825" "0.3476" "1" "DX" "TIME"
          returnStateInfo := { returnCode := "", returnMessage := "" } } :=
  buildEncryptedRequest_spec (fun n : Nat => toString n) revBlock hexEncode charBytes
    (fun _ d => "SIG:" ++ d) 7 keyZ "T109" "TIN" "DEV" "" "PK" "1" "DX" "TIME"
    (by decide)

/- =========================================
 * Claim C6: all-or-nothing cached key state
 * ========================================= -/

theorem fetchAesKeyHandshake_cases (p : Prims) (cfg : KeyClientConfig)
    (pfxLoad : Except String String) (net : Envelope → Except String T104Resp)
    (dxId reqTime : String) (st : KeyState) (now : Nat) :
    (exceptIsError (fetchAesKeyHandshake p cfg pfxLoad net dxId reqTime st now).1 = true →
      ((fetchAesKeyHandshake p cfg pfxLoad net dxId reqTime st now).2.aesKey = st.aesKey ∧
       (fetchAesKeyHandshake p cfg pfxLoad net dxId reqTime st now).2.aesKeyFetchedAt
         = st.aesKeyFetchedAt ∧
       (fetchAesKeyHandshake p cfg pfxLoad net dxId reqTime st now).2.aesKeyContentJson
         = st.aesKeyContentJson)) ∧
    (exceptIsError (fetchAesKeyHandshake p cfg pfxLoad net dxId reqTime st now).1 = false →
      ((fetchAesKeyHandshake p cfg pfxLoad net dxId reqTime st now).2.aesKey.isSome = true ∧
       (fetchAesKeyHandshake p cfg pfxLoad net dxId reqTime st now).2.aesKeyFetchedAt.isSome
         = true)) := by
  unfold fetchAesKeyHandshake
  refine ⟨?_, ?_⟩ <;> (repeat' split) <;> simp [exceptIsError, apply_ite] <;> (try split_ifs) <;>
    simp_all [exceptIsError]

/-- C6: the cached session-key state is all-or-nothing (`cacheInv`: key
and fetch timestamp are set and cleared together): the invariant holds in
the initial state, is preserved by `forgetAesKey` and `fetchAesKey`, and
any erroring `fetchAesKey` leaves the cached key, timestamp and decoded
content exactly as they were — only a successful handshake updates them. -/
theorem keyClient_cache_all_or_nothing (p : Prims) (cfg : KeyClientConfig)
    (pfxLoad : Except String String) (net : Envelope → Except String T104Resp)
    (dxId reqTime : String) (st : KeyState) (force : Bool) (now : Nat)
    (hinv : cacheInv st) :
    cacheInv initialKeyState ∧
    cacheInv (forgetAesKey st) ∧
    cacheInv (fetchAesKey p cfg pfxLoad net dxId reqTime st force now).2 ∧
    (exceptIsError (fetchAesKey p cfg pfxLoad net dxId reqTime st force now).1 = true →
      ((fetchAesKey p cfg pfxLoad net dxId reqTime st force now).2.aesKey = st.aesKey ∧
       (fetchAesKey p cfg pfxLoad net dxId reqTime st force now).2.aesKeyFetchedAt
         = st.aesKeyFetchedAt ∧
       (fetchAesKey p cfg pfxLoad net dxId reqTime st force now).2.aesKeyContentJson
         = st.aesKeyContentJson)) := by
  have hshake : ∀ st' : KeyState, cacheInv st' →
      cacheInv (fetchAesKeyHandshake p cfg pfxLoad net dxId reqTime st' now).2 := by
    intro st' hinv'
    have H := fetchAesKeyHandshake_cases p cfg pfxLoad net dxId reqTime st' now
    cases he : exceptIsError (fetchAesKeyHandshake p cfg pfxLoad net dxId reqTime st' now).1 with
    | true =>
      obtain ⟨h1, h2, _⟩ := H.1 he
      unfold cacheInv
      rw [h1, h2]
      exact hinv'
    | false =>
      obtain ⟨h1, h2⟩ := H.2 he
      unfold cacheInv
      rw [h1, h2]
  refine ⟨rfl, rfl, ?_, ?_⟩
  · obtain ⟨pk0, ak, ft, cj⟩ := st
    cases ak with
    | none => exact hshake _ hinv
    | some k =>
      cases ft with
      | none => exact hshake _ hinv
      | some t =>
        simp only [fetchAesKey]
        split
        · exact hinv
        · exact hshake _ hinv
  · obtain ⟨pk0, ak, ft, cj⟩ := st
    cases ak with
    | none => exact (fetchAesKeyHandshake_cases p cfg pfxLoad net dxId reqTime _ now).1
    | some k =>
      cases ft with
      | none => exact (fetchAesKeyHandshake_cases p cfg pfxLoad net dxId reqTime _ now).1
      | some t =>
        simp only [fetchAesKey]
        split
        · intro h
          simp [exceptIsError] at h
        · exact (fetchAesKeyHandshake_cases p cfg pfxLoad net dxId reqTime _ now).1

/-- C6 witness: on a concrete state with an empty cache and a failing
network, `fetchAesKey` errors and leaves the cache untouched (and the
invariant holds throughout). -/
theorem keyClient_cache_all_or_nothing_witness :
    cacheInv (forgetAesKey initialKeyState) ∧
    cacheInv (fetchAesKey witPrims witCfg (.ok "PK") (fun _ => .error "down")
      "DX" "TIME" initialKeyState false 0).2 ∧
    ((fetchAesKey witPrims witCfg (.ok "PK") (fun _ => .error "down")
        "DX" "TIME" initialKeyState false 0).2.aesKey = initialKeyState.aesKey ∧
     (fetchAesKey witPrims witCfg (.ok "PK") (fun _ => .error "down")
        "DX" "TIME" initialKeyState false 0).2.aesKeyFetchedAt
       = initialKeyState.aesKeyFetchedAt ∧
     (fetchAesKey witPrims witCfg (.ok "PK") (fun _ => .error "down")
        "DX" "TIME" initialKeyState false 0).2.aesKeyContentJson
       = initialKeyState.aesKeyContentJson) := by
  have h := keyClient_cache_all_or_nothing witPrims witCfg (.ok "PK")
    (fun _ => .error "down") "DX" "TIME" initialKeyState false 0 rfl
  exact ⟨h.2.1, h.2.2.1, h.2.2.2 (by decide)⟩

/- =========================================
 * Claim C4: unwrapResponse key requirement
 * ========================================= -/

/-- C4 counterexample: on a `codeType='1'` envelope with
`encryptCode='1' ≠ '2'` and `zipCode='0'`, `unwrapResponse` without a key
does NOT succeed — it raises `EncryptionError`, because the source requires
a key whenever `codeType='1'`, before ever consulting `encryptCode`. -/
theorem unwrapResponse_no_key_counterexample :
    unwrapResponse (α := Nat) revBlock okGunzip hexDecode charBytes bytesChars
      (fun _ => .ok 0) cex4Resp none
      = .error (.encryption
          "Response processing failed: Encrypted response but no AES key provided") := by
  rfl

/-- In the non-encrypting branch (`encryptCode ≠ '2'`, `zipCode = '0'`),
`decryptAesEcb` returns the base64-decoded bytes as text, untouched. -/
theorem decryptAesEcb_plain (blockDec : List Nat → List Nat → List Nat)
    (gunzip : List Nat → Except String (List Nat))
    (b64d : String → List Nat) (utf8e : String → List Nat) (utf8d : List Nat → String)
    (ct : String) (key : Option String) (ec : String)
    (hct : ct ≠ "") (hec : ec ≠ "2") :
    decryptAesEcb blockDec gunzip b64d utf8e utf8d ct key ec "0"
      = .ok (utf8d (b64d ct)) := by
  rw [decryptAesEcb, if_neg hct]
  simp only [if_neg (show ¬ ("0" : String) = "1" from by decide), if_neg hec]

/-- C4 amended: for a `codeType='1'` envelope with non-empty content, an
AES key is required regardless of `encryptCode`: with a falsy key
`unwrapResponse` raises `EncryptionError` even when `encryptCode ≠ '2'`;
when a non-empty key is supplied and `encryptCode ≠ '2'` (and
`zipCode='0'`), it succeeds, replacing the content with the parsed
base64-decoded bytes, returned as-is without decryption (the block cipher
is never consulted). -/
theorem unwrapResponse_codeType1_key_policy {α : Type}
    (blockDec : List Nat → List Nat → List Nat)
    (gunzip : List Nat → Except String (List Nat))
    (b64d : String → List Nat) (utf8e : String → List Nat) (utf8d : List Nat → String)
    (jsonParse : String → Except String α)
    (d : RData) (dd : RDataDescription) (c : String)
    (hc : d.content = some c) (hcne : c ≠ "")
    (hdd : d.dataDescription = some dd) (hct : dd.codeType = some "1")
    (hzc : dd.zipCode = some "0") :
    (∀ aesKey : Option String, falsyStr aesKey = true →
      unwrapResponse blockDec gunzip b64d utf8e utf8d jsonParse ⟨some d⟩ aesKey
        = .error (.encryption
            "Response processing failed: Encrypted response but no AES key provided")) ∧
    (∀ k : String, k ≠ "" → ∀ ec : String, dd.encryptCode = some ec → ec ≠ "2" →
      ∀ v : α, jsonParse (utf8d (b64d c)) = .ok v →
      unwrapResponse blockDec gunzip b64d utf8e utf8d jsonParse ⟨some d⟩ (some k)
        = .ok (some v)) := by
  have h1 : ((⟨some d⟩ : RespEnvelope).data.bind fun x => x.content) = d.content := rfl
  have h2 : jsOr (some c) "" = c := by
    simp [jsOr, hcne]
  have h3 : ((⟨some d⟩ : RespEnvelope).data.bind fun x => x.dataDescription)
      = d.dataDescription := rfl
  constructor
  · intro aesKey hfk
    simp only [unwrapResponse, h1, hc, h2, h3, hdd, Option.getD_some, hct, hzc]
    rw [if_neg hcne]
    rw [show jsOr (some "1") "0" = "1" from rfl]
    rw [if_pos rfl, hfk]
    rfl
  · intro k hkne ec hec hec2 v hv
    have hfk : falsyStr (some k) = false := by
      simp [falsyStr, hkne]
    have hec' : jsOr (some ec) "0" ≠ "2" := by
      simp only [jsOr]
      by_cases h : ec = ""
      · simp [h]
      · simpa [h] using hec2
    simp only [unwrapResponse, h1, hc, h2, h3, hdd, Option.getD_some, hct, hzc, hec]
    rw [if_neg hcne]
    rw [show jsOr (some "1") "0" = "1" from rfl]
    rw [show jsOr (some "0") "0" = "0" from rfl]
    rw [if_pos rfl, hfk]
    simp only [Bool.false_eq_true, if_false]
    rw [decryptAesEcb_plain blockDec gunzip b64d utf8e utf8d c (some k)
      (jsOr (some ec) "0") hcne hec']
    simp only [hv]

/-- C4 witness for the amended claim: both halves at concrete inputs. -/
theorem unwrapResponse_codeType1_key_policy_witness :
    unwrapResponse (α := Nat) revBlock okGunzip hexDecode charBytes bytesChars
      (fun _ => .ok 42) ⟨some ⟨some "QQ==", some ⟨some "1", some "1", some "0"⟩⟩⟩ none
      = .error (.encryption
          "Response processing failed: Encrypted response but no AES key provided") ∧
    unwrapResponse (α := Nat) revBlock okGunzip hexDecode charBytes bytesChars
      (fun _ => .ok 42) ⟨some ⟨some "QQ==", some ⟨some "1", some "1", some "0"⟩⟩⟩
      (some "k")
      = .ok (some 42) := by
  have h := unwrapResponse_codeType1_key_policy (α := Nat) revBlock okGunzip hexDecode
    charBytes bytesChars (fun _ => .ok 42) ⟨some "QQ==", some ⟨some "1", some "1", some "0"⟩⟩
    ⟨some "1", some "1", some "0"⟩ "QQ==" rfl (by decide) rfl rfl rfl
  exact ⟨h.1 none rfl, h.2 "k" (by decide) "1" rfl (by decide) 42 rfl⟩
